import Mathlib

/-!
Verification development for the battlecode-2018 game-state rules engine.

The repository ships the public C API surface (`src/battlecode/bc.h`,
declarations and documentation comments) together with example callers;
the engine implementation behind those declarations is not part of the
available sources.  Following the specification document, the data model
and the operations that the claims refer to are therefore modelled here
as pure Lean functions: mutating actions are functions
`GameWorld → args → Except BcError GameWorld` that validate fully before
committing, predicates are Boolean functions on the world, and the two
deterministic generators (asteroid pattern, orbit pattern) are pure
functions of their seeds.  Definitions whose behaviour is not pinned
down by `bc.h` carry a doc comment starting with `Modelled from the
spec:` naming what is missing.
-/

/-- The planets in the Battlecode world (`bc_Planet` in bc.h). -/
inductive Planet
  | earth
  | mars
deriving DecidableEq, Repr

/-- The two teams (`bc_Team` in bc.h). -/
inductive Team
  | red
  | blue
deriving DecidableEq, Repr

/-- A direction from one MapLocation to another: the eight compass
points in the enumeration order of `bc_Direction` in bc.h, plus Center.
Coordinates increase in the north and east directions. -/
inductive Direction
  | north
  | northeast
  | east
  | southeast
  | south
  | southwest
  | west
  | northwest
  | center
deriving DecidableEq, Repr

/-- The numeric value of a direction, matching the C enum values
`North = 0 .. Northwest = 7, Center = 8`. -/
def Direction.toIdx : Direction → Nat
  | .north => 0
  | .northeast => 1
  | .east => 2
  | .southeast => 3
  | .south => 4
  | .southwest => 5
  | .west => 6
  | .northwest => 7
  | .center => 8

/-- The compass direction with the given enum value modulo 8. -/
def Direction.ofIdx (n : Nat) : Direction :=
  match n % 8 with
  | 0 => .north
  | 1 => .northeast
  | 2 => .east
  | 3 => .southeast
  | 4 => .south
  | 5 => .southwest
  | 6 => .west
  | _ => .northwest

/-- Modelled from the spec: the implementation of
`bc_Direction_dx` is absent from src; bc.h documents the x displacement
of the direction, with coordinates increasing in the east direction. -/
def Direction.dx : Direction → Int
  | .north => 0
  | .northeast => 1
  | .east => 1
  | .southeast => 1
  | .south => 0
  | .southwest => -1
  | .west => -1
  | .northwest => -1
  | .center => 0

/-- Modelled from the spec: the implementation of
`bc_Direction_dy` is absent from src; bc.h documents the y displacement
of the direction, with coordinates increasing in the north direction. -/
def Direction.dy : Direction → Int
  | .north => 1
  | .northeast => 1
  | .east => 0
  | .southeast => -1
  | .south => -1
  | .southwest => -1
  | .west => 0
  | .northwest => 1
  | .center => 0

/-- Modelled from the spec: the implementation of
`bc_Direction_opposite` is absent from src; bc.h documents it as the
direction opposite this one, or Center if it is Center. -/
def Direction.opposite (d : Direction) : Direction :=
  if d = .center then .center else .ofIdx (d.toIdx + 4)

/-- Modelled from the spec: the implementation of
`bc_Direction_rotate_left` is absent from src; bc.h documents it as the
direction 45 degrees counter-clockwise, or Center if it is Center. -/
def Direction.rotate_left (d : Direction) : Direction :=
  if d = .center then .center else .ofIdx (d.toIdx + 7)

/-- Modelled from the spec: the implementation of
`bc_Direction_rotate_right` is absent from src; bc.h documents it as the
direction 45 degrees clockwise, or Center if it is Center. -/
def Direction.rotate_right (d : Direction) : Direction :=
  if d = .center then .center else .ofIdx (d.toIdx + 1)

/-- Two-dimensional coordinates in the Battlecode world
(`bc_MapLocation` in bc.h): a planet and a pair of coordinates. -/
structure MapLocation where
  planet : Planet
  x : Int
  y : Int
deriving DecidableEq, Repr

/-- The location one square from this one in the given direction
(`bc_MapLocation_add`). -/
def MapLocation.add (l : MapLocation) (d : Direction) : MapLocation :=
  { l with x := l.x + d.dx, y := l.y + d.dy }

/-- Modelled from the spec: the implementation of
`bc_MapLocation_is_adjacent_to` is absent from src; bc.h documents that
squares are not adjacent to themselves and squares on different planets
are not adjacent to each other. -/
def MapLocation.is_adjacent_to (l o : MapLocation) : Bool :=
  l.planet = o.planet && l ≠ o && (l.x - o.x).natAbs ≤ 1 && (l.y - o.y).natAbs ≤ 1

/-- Modelled from the spec: the implementation of
`bc_MapLocation_distance_squared_to` is absent from src; bc.h documents
the squared distance, returning the maximum integer when the locations
are on different planets. -/
def MapLocation.distance_squared_to (l o : MapLocation) : Nat :=
  if l.planet = o.planet then ((l.x - o.x) ^ 2 + (l.y - o.y) ^ 2).toNat
  else 2 ^ 32 - 1

/-- The location of a unit (`bc_Location` in bc.h): a tagged union
OnMap, InGarrison or InSpace, per the spec data model. -/
inductive Location
  | onMap (loc : MapLocation)
  | inGarrison (structureId : Nat)
  | inSpace
deriving DecidableEq, Repr

/-- True if and only if the location is on the map and on this planet
(`bc_Location_is_on_planet`). -/
def Location.is_on_planet (l : Location) (p : Planet) : Bool :=
  match l with
  | .onMap m => m.planet = p
  | _ => false

/-- Adjacency of unit locations (`bc_Location_is_adjacent_to`): nothing
is adjacent to something not on a map. -/
def Location.is_adjacent_to (l o : Location) : Bool :=
  match l, o with
  | .onMap a, .onMap b => a.is_adjacent_to b
  | _, _ => false

/-- The unit types (`bc_UnitType` in bc.h). -/
inductive UnitType
  | worker
  | knight
  | ranger
  | mage
  | healer
  | factory
  | rocket
deriving DecidableEq, Repr

/-- Whether a unit type is a robot (worker, knight, ranger, mage or
healer), as opposed to a structure. -/
def UnitType.isRobot : UnitType → Bool
  | .worker | .knight | .ranger | .mage | .healer => true
  | _ => false

/-- Whether a unit type is a structure (factory or rocket). -/
def UnitType.isStructure : UnitType → Bool
  | .factory | .rocket => true
  | _ => false

/-- The error taxonomy of the engine, following bc.h error
documentation and the spec error-handling section.  Errors are values:
every fallible operation returns `Except BcError`. -/
inductive BcError
  | noSuchUnit
  | teamNotAllowed
  | inappropriateUnitType
  | unitNotOnMap
  | locationOffMap
  | locationNotVisible
  | locationNotEmpty
  | nullValue
  | overheated
  | outOfRange
  | insufficientKarbonite
  | researchNotUnlocked
  | structureNotYetBuilt
  | structureAlreadyBuilt
  | garrisonFull
  | garrisonEmpty
  | arrayOutOfBounds
  | karboniteDepositEmpty
  | rocketUsed
  | samePlanet
  | cannotBuildOnMars
  | factoryBusy
  | invalidMapObject
deriving DecidableEq, Repr

/-- Modelled from the spec: the heat model constants are absent from
src.  An action is permitted only while the relevant heat is strictly
below this overheat threshold. -/
def maxHeatToAct : Nat := 10

/-- Modelled from the spec: heat decays by a fixed per-round amount,
clamped at 0, at the end of every turn taken by the unit team on the
unit planet. -/
def heatDecay : Nat := 10

/-- Modelled from the spec: the max capacity of a structure garrison
(`bc_Unit_structure_max_capacity`); the numeric value is absent from
src, fixed here at 8 for factories and rockets. -/
def structureMaxCapacity : UnitType → Nat
  | .factory => 8
  | .rocket => 8
  | _ => 0

/-- Modelled from the spec: blueprint costs
(`bc_UnitType_blueprint_cost`) are absent from src; the spec scenario
fixes the factory blueprint cost at 50.  The rocket cost is otherwise
unconstrained and fixed here at 150. -/
def blueprintCostN : UnitType → Nat
  | .factory => 50
  | .rocket => 150
  | _ => 0

/-- Modelled from the spec: blast damage dealt by a rocket to adjacent
units at launch and at landing (`bc_Unit_rocket_blast_damage`); the
numeric value is absent from src. -/
def rocketBlastDamage : Nat := 100

/-- A single unit in the game and all its associated properties
(`bc_Unit` in bc.h).  The record is flat; accessors for type-dependent
fields guard on the unit type and report `inappropriateUnitType`, per
the bc.h documentation. -/
structure BcUnit where
  id : Nat
  team : Team
  unitType : UnitType
  health : Nat
  maxHealth : Nat
  location : Location
  damage : Nat
  attackRange : Nat
  movementHeat : Nat
  movementCooldown : Nat
  attackHeat : Nat
  attackCooldown : Nat
  abilityHeat : Nat
  snipe : Option (Nat × MapLocation)
  workerHasActed : Bool
  garrison : List Nat
  structureIsBuilt : Bool
  rocketIsUsed : Bool
  travelTimeDecrease : Nat
deriving DecidableEq, Repr

/-- Whether the ranger is sniping (`bc_Unit_ranger_is_sniping`):
errors with `inappropriateUnitType` when the unit is not a ranger. -/
def BcUnit.ranger_is_sniping (u : BcUnit) : Except BcError Bool :=
  if u.unitType = .ranger then .ok u.snipe.isSome
  else .error .inappropriateUnitType

/-- The countdown for the ranger snipe (`bc_Unit_ranger_countdown`):
errors with `inappropriateUnitType` when the unit is not a ranger and
with `nullValue` when the ranger is not sniping. -/
def BcUnit.ranger_countdown (u : BcUnit) : Except BcError Nat :=
  if u.unitType = .ranger then
    match u.snipe with
    | some (c, _) => .ok c
    | none => .error .nullValue
  else .error .inappropriateUnitType

/-- The target location for the ranger snipe
(`bc_Unit_ranger_target_location`): errors with
`inappropriateUnitType` when the unit is not a ranger and with
`nullValue` when the ranger is not sniping. -/
def BcUnit.ranger_target_location (u : BcUnit) : Except BcError MapLocation :=
  if u.unitType = .ranger then
    match u.snipe with
    | some (_, t) => .ok t
    | none => .error .nullValue
  else .error .inappropriateUnitType

/-- The orbit pattern that determines a rocket flight duration
(`bc_OrbitPattern` in bc.h): a sinusoidal function y = a * sin(b * x) + c
where amplitude, period and center are measured in rounds. -/
structure OrbitPattern where
  amplitude : Nat
  period : Nat
  center : Nat
deriving DecidableEq, Repr

/-- Modelled from the spec: the implementation of
`bc_OrbitPattern_duration` is absent from src; the spec defines
duration(round) as amplitude * sin(2 * pi * round / period) + center
rounded to the nearest integer. -/
noncomputable def OrbitPattern.duration (p : OrbitPattern) (r : Nat) : Nat :=
  (round ((p.amplitude : ℝ) * Real.sin (2 * Real.pi * (r : ℝ) / (p.period : ℝ))
    + (p.center : ℝ))).toNat

/-- Modelled from the spec: `bc_OrbitPattern_validate` checks the
invariant amplitude < center, so the duration never reaches zero. -/
def OrbitPattern.isValid (p : OrbitPattern) : Bool :=
  p.amplitude < p.center

/-- Modelled from the spec: the map dimension bounds
MAP_HEIGHT_MIN / MAP_WIDTH_MIN and their maxima are absent from src;
fixed here at 20 and 50. -/
def mapDimMin : Nat := 20

/-- Modelled from the spec: upper map dimension bound. -/
def mapDimMax : Nat := 50

/-- The map for one of the planets (`bc_PlanetMap` in bc.h): planet,
dimensions, passable-terrain grid (stored as the list of impassable
cells) and the initial unit list. -/
structure PlanetMap where
  planet : Planet
  height : Nat
  width : Nat
  impassable : List (Int × Int)
  initialUnits : List BcUnit
deriving DecidableEq, Repr

/-- Whether a location is on the map (`bc_PlanetMap_on_map`). -/
def PlanetMap.on_map (m : PlanetMap) (l : MapLocation) : Bool :=
  l.planet = m.planet && 0 ≤ l.x && l.x < (m.width : Int) && 0 ≤ l.y && l.y < (m.height : Int)

/-- Whether the location contains passable terrain
(`bc_PlanetMap_is_passable_terrain_at`), folded with the on-map check. -/
def PlanetMap.passableAt (m : PlanetMap) (l : MapLocation) : Bool :=
  m.on_map l && (l.x, l.y) ∉ m.impassable

/-- A single asteroid strike on Mars (`bc_AsteroidStrike`):
a karbonite amount and a location. -/
structure AsteroidStrike where
  karbonite : Nat
  location : MapLocation
deriving DecidableEq, Repr

/-- The asteroid pattern (`bc_AsteroidPattern`), stored as its derived
sparse mapping from round to strike, per the spec data model. -/
structure AsteroidPattern where
  strikes : List (Nat × AsteroidStrike)
deriving DecidableEq, Repr

/-- A step of a linear congruential generator, used to derive the
pseudorandom asteroid schedule from the seed. -/
def lcg (x : Nat) : Nat := (x * 1103515245 + 12345) % 2 ^ 31

/-- Modelled from the spec: the pseudorandom strike generator behind
`new_bc_AsteroidPattern` is absent from src; the spec requires a
strictly generative, deterministic sparse schedule derived from the
seed and the Mars map.  Each step draws a round gap, a location inside
the map bounds and a karbonite amount from the generator state. -/
def genStrikes (m : PlanetMap) : Nat → Nat → Nat → List (Nat × AsteroidStrike)
  | 0, _, _ => []
  | fuel + 1, lastRound, s =>
    let s1 := lcg s
    let r := lastRound + s1 % 20 + 1
    let x := Int.ofNat (lcg s1 % (m.width + 1))
    let y := Int.ofNat (lcg (lcg s1) % (m.height + 1))
    let k := s1 % 100 + 20
    (r, ⟨k, ⟨.mars, x, y⟩⟩) :: genStrikes m fuel r (lcg (lcg (lcg s1)))

/-- Constructs a pseudorandom asteroid pattern given a seed and a map
of Mars (`new_bc_AsteroidPattern`). -/
def newAsteroidPattern (seed : Nat) (marsMap : PlanetMap) : AsteroidPattern :=
  ⟨genStrikes marsMap 64 0 seed⟩

/-- Whether there is an asteroid strike at the given round
(`bc_AsteroidPattern_has_asteroid`). -/
def AsteroidPattern.has_asteroid (p : AsteroidPattern) (r : Nat) : Bool :=
  p.strikes.any (fun e => e.1 = r)

/-- The asteroid strike at the given round
(`bc_AsteroidPattern_asteroid`): errors with `nullValue` when there is
no strike at this round. -/
def AsteroidPattern.asteroid (p : AsteroidPattern) (r : Nat) : Except BcError AsteroidStrike :=
  match p.strikes.find? (fun e => e.1 = r) with
  | some e => .ok e.2
  | none => .error .nullValue

/-- The map defining the starting state for an entire game
(`bc_GameMap` in bc.h): seed, both planet maps, asteroid pattern and
orbit pattern. -/
structure GameMap where
  seed : Nat
  earthMap : PlanetMap
  marsMap : PlanetMap
  asteroids : AsteroidPattern
  orbit : OrbitPattern
deriving DecidableEq, Repr

/-- Modelled from the spec: the validator behind
`bc_PlanetMap_validate` is absent from src; the spec requires
dimensions in range, initial units that are workers with well-formed
empty garrisons, each on-map on this planet and on passable terrain,
and no two initial units sharing a cell. -/
def PlanetMap.isValid (m : PlanetMap) : Bool :=
  mapDimMin ≤ m.height && m.height ≤ mapDimMax &&
  mapDimMin ≤ m.width && m.width ≤ mapDimMax &&
  m.initialUnits.all (fun u =>
    u.unitType = .worker && u.garrison = [] &&
    match u.location with
    | .onMap l => m.passableAt l
    | _ => false) &&
  (m.initialUnits.map (fun u => u.location)).Nodup

/-- Modelled from the spec: the validator behind
`bc_GameMap_validate` is absent from src; it runs the planet map
checks, requires the orbit invariant amplitude < center, and requires
initial units on Earth only. -/
def GameMap.isValid (gm : GameMap) : Bool :=
  gm.earthMap.planet = .earth && gm.marsMap.planet = .mars &&
  gm.earthMap.isValid && gm.marsMap.isValid &&
  gm.marsMap.initialUnits = [] && gm.orbit.isValid

/-- The mutable authoritative state (`GameWorld` in the spec): round
counter, active team and planet slot, per-team resource pools and
research, the unit set of both planets, the rocket landing schedule and
the immutable patterns and maps. -/
structure GameWorld where
  round : Nat
  currentTeam : Team
  currentPlanet : Planet
  redKarbonite : Nat
  blueKarbonite : Nat
  redRocketResearch : Bool
  blueRocketResearch : Bool
  units : List BcUnit
  landings : List (Nat × Nat × MapLocation)
  orbit : OrbitPattern
  earthMap : PlanetMap
  marsMap : PlanetMap
deriving DecidableEq, Repr

/-- The karbonite in the given team resource pool
(`bc_GameController_karbonite` for the acting team). -/
def GameWorld.teamKarbonite (w : GameWorld) (t : Team) : Nat :=
  match t with
  | .red => w.redKarbonite
  | .blue => w.blueKarbonite

/-- Replaces the given team resource pool. -/
def GameWorld.setTeamKarbonite (w : GameWorld) (t : Team) (k : Nat) : GameWorld :=
  match t with
  | .red => { w with redKarbonite := k }
  | .blue => { w with blueKarbonite := k }

/-- Whether the given team has researched Rocketry. -/
def GameWorld.rocketResearch (w : GameWorld) (t : Team) : Bool :=
  match t with
  | .red => w.redRocketResearch
  | .blue => w.blueRocketResearch

/-- The static map of the given planet
(`bc_GameController_starting_map`). -/
def GameWorld.mapOf (w : GameWorld) (p : Planet) : PlanetMap :=
  match p with
  | .earth => w.earthMap
  | .mars => w.marsMap

/-- The single unit with this id (`bc_GameController_unit`): the first
unit in the unit set with a matching id, if any. -/
def GameWorld.findUnit (w : GameWorld) (id : Nat) : Option BcUnit :=
  w.units.find? (fun u => u.id = id)

/-- Replaces every unit whose id matches the id of the given unit. -/
def GameWorld.setUnit (w : GameWorld) (u' : BcUnit) : GameWorld :=
  { w with units := w.units.map (fun u => if u.id = u'.id then u' else u) }

/-- Removes the unit with the given id from the world; any unit
garrisoned inside it is removed as well. -/
def GameWorld.removeUnit (w : GameWorld) (uid : Nat) : GameWorld :=
  { w with units :=
      w.units.filter (fun u => u.id ≠ uid ∧ u.location ≠ .inGarrison uid) }

/-- Applies blast damage to every unit adjacent to the given cell,
removing units whose health is reduced to zero. -/
def GameWorld.applyBlast (w : GameWorld) (c : MapLocation) (dmg : Nat) : GameWorld :=
  { w with units := w.units.filterMap (fun u =>
      if u.location.is_adjacent_to (.onMap c) then
        if u.health ≤ dmg then none
        else some { u with health := u.health - dmg }
      else some u) }

/-- Whether some visible unit occupies the given map cell. -/
def GameWorld.occupiedAt (w : GameWorld) (l : MapLocation) : Bool :=
  w.units.any (fun u => u.location = .onMap l)

/-- Whether the location is clear for a unit to occupy
(`bc_GameController_is_occupiable`): passable terrain and no unit. -/
def GameWorld.is_occupiable (w : GameWorld) (l : MapLocation) : Bool :=
  (w.mapOf l.planet).passableAt l && !w.occupiedAt l

/-- A fresh unit id: one more than the greatest id in use. -/
def GameWorld.freshId (w : GameWorld) : Nat :=
  (w.units.map (fun u => u.id)).foldr max 0 + 1

/-- Modelled from the spec: the implementation of
`bc_GameController_move_robot` is absent from src.  Checks follow the
shared precondition order of the spec rules engine section: the actor
exists, belongs to the acting team, has the right unit type, is on the
map, its movement heat is below the overheat threshold, and then the
target square is on the map and occupiable; moving adds the movement
cooldown to the movement heat. -/
def GameWorld.move_robot (w : GameWorld) (id : Nat) (d : Direction) : Except BcError GameWorld :=
  match w.findUnit id with
  | none => .error .noSuchUnit
  | some u =>
    if u.team ≠ w.currentTeam then .error .teamNotAllowed
    else if ¬ u.unitType.isRobot then .error .inappropriateUnitType
    else match u.location with
      | .onMap l =>
        if maxHeatToAct ≤ u.movementHeat then .error .overheated
        else if ¬ (w.mapOf (l.add d).planet).on_map (l.add d) then .error .locationOffMap
        else if ¬ w.is_occupiable (l.add d) then .error .locationNotEmpty
        else .ok (w.setUnit { u with location := .onMap (l.add d),
                                     movementHeat := u.movementHeat + u.movementCooldown })
      | _ => .error .unitNotOnMap

/-- Modelled from the spec: the implementation of
`bc_GameController_can_move` is absent from src; bc.h documents it as
taking into account only the map terrain, positions of other robots
and the edge of the map, without the movement heat, folding every
failure into false. -/
def GameWorld.can_move (w : GameWorld) (id : Nat) (d : Direction) : Bool :=
  match w.findUnit id with
  | none => false
  | some u =>
    u.team = w.currentTeam && u.unitType.isRobot &&
    match u.location with
    | .onMap l => (w.mapOf (l.add d).planet).on_map (l.add d) && w.is_occupiable (l.add d)
    | _ => false

/-- Modelled from the spec: the implementation of
`bc_GameController_is_move_ready` is absent from src.  The spec heat
model makes the cooldown relevant to moving the movement heat; the
bc.h doc sentence for this predicate mentions attack heat, repeating
the wording of `bc_GameController_is_attack_ready` verbatim, while the
`Overheated` error of `bc_GameController_move_robot` concerns
readiness to move, so the movement heat governs here. -/
def GameWorld.is_move_ready (w : GameWorld) (id : Nat) : Bool :=
  match w.findUnit id with
  | none => false
  | some u => u.team = w.currentTeam && u.unitType.isRobot && u.movementHeat < maxHeatToAct

/-- Modelled from the spec: the implementation of
`bc_GameController_attack` is absent from src.  Applies the fixed
per-type damage to the target health, clamping at 0 and removing the
target when its health reaches 0; attacking adds the attack cooldown
to the attack heat.  Healers cannot attack. -/
def GameWorld.attack (w : GameWorld) (id tid : Nat) : Except BcError GameWorld :=
  match w.findUnit id with
  | none => .error .noSuchUnit
  | some u =>
    if u.team ≠ w.currentTeam then .error .teamNotAllowed
    else if ¬ u.unitType.isRobot ∨ u.unitType = .healer then .error .inappropriateUnitType
    else match u.location with
      | .onMap l =>
        if maxHeatToAct ≤ u.attackHeat then .error .overheated
        else match w.findUnit tid with
          | none => .error .noSuchUnit
          | some t =>
            match t.location with
            | .onMap lt =>
              if ¬ l.distance_squared_to lt ≤ u.attackRange then .error .outOfRange
              else
                let w1 := w.setUnit { u with attackHeat := u.attackHeat + u.attackCooldown }
                if t.health ≤ u.damage then .ok (w1.removeUnit tid)
                else .ok (w1.setUnit { t with health := t.health - u.damage })
            | _ => .error .unitNotOnMap
      | _ => .error .unitNotOnMap

/-- A freshly blueprinted structure.  Modelled from the spec: blueprint
places an unbuilt structure with health 0; the other numeric fields of
structures are absent from src and fixed representative values are
used. -/
def newStructureUnit (id : Nat) (t : Team) (ty : UnitType) (l : MapLocation) : BcUnit :=
  { id := id, team := t, unitType := ty, health := 0, maxHealth := 300,
    location := .onMap l, damage := 0, attackRange := 0, movementHeat := 0,
    movementCooldown := 0, attackHeat := 0, attackCooldown := 0, abilityHeat := 0,
    snipe := none, workerHasActed := false, garrison := [],
    structureIsBuilt := false, rocketIsUsed := false, travelTimeDecrease := 0 }

/-- Modelled from the spec: the implementation of
`bc_GameController_blueprint` is absent from src.  Validates the shared
preconditions, the target square, the planet (structures cannot be
blueprinted on Mars), the Rocketry research gate for rockets and the
karbonite solvency of the team pool; on success it deducts the
blueprint cost, marks the worker as having acted and places the
unbuilt structure. -/
def GameWorld.blueprint (w : GameWorld) (workerId : Nat) (structureType : UnitType)
    (d : Direction) : Except BcError GameWorld :=
  match w.findUnit workerId with
  | none => .error .noSuchUnit
  | some u =>
    if u.team ≠ w.currentTeam then .error .teamNotAllowed
    else if ¬ (u.unitType = .worker ∧ structureType.isStructure) then .error .inappropriateUnitType
    else match u.location with
      | .onMap l =>
        if u.workerHasActed then .error .overheated
        else if ¬ (w.mapOf (l.add d).planet).on_map (l.add d) then .error .locationOffMap
        else if ¬ w.is_occupiable (l.add d) then .error .locationNotEmpty
        else if (l.add d).planet = .mars then .error .cannotBuildOnMars
        else if structureType = .rocket ∧ ¬ w.rocketResearch u.team then .error .researchNotUnlocked
        else if w.teamKarbonite u.team < blueprintCostN structureType then .error .insufficientKarbonite
        else
          let w1 := (w.setUnit { u with workerHasActed := true }).setTeamKarbonite u.team
            (w.teamKarbonite u.team - blueprintCostN structureType)
          .ok { w1 with units := w1.units ++ [newStructureUnit w.freshId u.team structureType (l.add d)] }
      | _ => .error .unitNotOnMap

/-- Modelled from the spec: the implementation of
`bc_GameController_can_blueprint` is absent from src; the predicate
folds every failure reason of the blueprint mutator into false. -/
def GameWorld.can_blueprint (w : GameWorld) (workerId : Nat) (structureType : UnitType)
    (d : Direction) : Bool :=
  match w.findUnit workerId with
  | none => false
  | some u =>
    u.team = w.currentTeam && u.unitType = .worker && structureType.isStructure &&
    match u.location with
    | .onMap l =>
      !u.workerHasActed && (w.mapOf (l.add d).planet).on_map (l.add d) &&
      w.is_occupiable (l.add d) && (l.add d).planet ≠ .mars &&
      (structureType ≠ .rocket || w.rocketResearch u.team) &&
      blueprintCostN structureType ≤ w.teamKarbonite u.team
    | _ => false

/-- Modelled from the spec: the implementation of
`bc_GameController_load` is absent from src.  Validates both units, the
teams, the unit types, the robot movement readiness, the built state
and the garrison capacity, then the adjacency; on success it appends
the robot id at the back of the structure garrison (FIFO) and moves
the robot into the garrison. -/
def GameWorld.load (w : GameWorld) (sid rid : Nat) : Except BcError GameWorld :=
  match w.findUnit sid with
  | none => .error .noSuchUnit
  | some s =>
    match w.findUnit rid with
    | none => .error .noSuchUnit
    | some r =>
      if s.team ≠ w.currentTeam ∨ r.team ≠ w.currentTeam then .error .teamNotAllowed
      else if ¬ (s.unitType.isStructure ∧ r.unitType.isRobot) then .error .inappropriateUnitType
      else match s.location, r.location with
        | .onMap ls, .onMap lr =>
          if maxHeatToAct ≤ r.movementHeat then .error .overheated
          else if ¬ s.structureIsBuilt then .error .structureNotYetBuilt
          else if structureMaxCapacity s.unitType ≤ s.garrison.length then .error .garrisonFull
          else if ¬ ls.is_adjacent_to lr then .error .outOfRange
          else
            let w1 := w.setUnit { s with garrison := s.garrison ++ [rid] }
            .ok (w1.setUnit { r with location := .inGarrison sid })
        | _, _ => .error .unitNotOnMap

/-- Modelled from the spec: the implementation of
`bc_GameController_can_load` is absent from src; bc.h documents that
the robot must be ready to move and adjacent to the structure, both on
the same (acting) team, the structure built with garrison space,
folding every failure into false. -/
def GameWorld.can_load (w : GameWorld) (sid rid : Nat) : Bool :=
  match w.findUnit sid, w.findUnit rid with
  | some s, some r =>
    s.team = w.currentTeam && r.team = w.currentTeam &&
    s.unitType.isStructure && r.unitType.isRobot &&
    (match s.location, r.location with
     | .onMap ls, .onMap lr => ls.is_adjacent_to lr
     | _, _ => false) &&
    r.movementHeat < maxHeatToAct && s.structureIsBuilt &&
    s.garrison.length < structureMaxCapacity s.unitType
  | _, _ => false

/-- Modelled from the spec: the implementation of
`bc_GameController_unload` is absent from src.  Pops the oldest
garrison entry (FIFO) and places that robot on the adjacent square in
the given direction. -/
def GameWorld.unload (w : GameWorld) (sid : Nat) (d : Direction) : Except BcError GameWorld :=
  match w.findUnit sid with
  | none => .error .noSuchUnit
  | some s =>
    if s.team ≠ w.currentTeam then .error .teamNotAllowed
    else if ¬ s.unitType.isStructure then .error .inappropriateUnitType
    else match s.location with
      | .onMap ls =>
        if ¬ s.structureIsBuilt then .error .structureNotYetBuilt
        else match s.garrison with
          | [] => .error .garrisonEmpty
          | rid :: rest =>
            match w.findUnit rid with
            | none => .error .noSuchUnit
            | some r =>
              if ¬ (w.mapOf (ls.add d).planet).on_map (ls.add d) then .error .locationOffMap
              else if ¬ w.is_occupiable (ls.add d) then .error .locationNotEmpty
              else if maxHeatToAct ≤ r.movementHeat then .error .overheated
              else
                let w1 := w.setUnit { s with garrison := rest }
                .ok (w1.setUnit { r with location := .onMap (ls.add d),
                                         movementHeat := r.movementHeat + r.movementCooldown })
      | _ => .error .unitNotOnMap

/-- Modelled from the spec: the implementation of
`bc_GameController_launch_rocket` is absent from src.  Validates the
rocket and the destination on the other planet, removes the rocket
(and, implicitly, its garrisoned units) from the current planet by
sending it into space, applies blast damage to units adjacent to the
launch cell, and schedules a landing at
current round + orbit duration of the current round − the research
travel-time decrease of the rocket. -/
noncomputable def GameWorld.launch_rocket (w : GameWorld) (rid : Nat)
    (dest : MapLocation) : Except BcError GameWorld :=
  match w.findUnit rid with
  | none => .error .noSuchUnit
  | some u =>
    if u.team ≠ w.currentTeam then .error .teamNotAllowed
    else if u.unitType ≠ .rocket then .error .inappropriateUnitType
    else match u.location with
      | .onMap l =>
        if dest.planet = l.planet then .error .samePlanet
        else if ¬ u.structureIsBuilt then .error .structureNotYetBuilt
        else if u.rocketIsUsed then .error .rocketUsed
        else if ¬ (w.mapOf dest.planet).on_map dest then .error .locationOffMap
        else if ¬ (w.mapOf dest.planet).passableAt dest then .error .locationNotEmpty
        else
          let sched := w.round + w.orbit.duration w.round - u.travelTimeDecrease
          let w1 := w.setUnit { u with location := .inSpace, rocketIsUsed := true }
          let w2 := w1.applyBlast l rocketBlastDamage
          .ok { w2 with landings := (sched, rid, dest) :: w2.landings }
      | _ => .error .unitNotOnMap

/-- The rocket landings scheduled for the given round
(`bc_RocketLandingInfo_landings_on`), as (rocket id, destination)
pairs. -/
def GameWorld.landings_on (w : GameWorld) (r : Nat) : List (Nat × MapLocation) :=
  (w.landings.filter (fun L => L.1 = r)).map (fun L => L.2)

/-- The vocabulary of per-unit actions modelled here, the payload of a
`TurnMessage` action list. -/
inductive BcAction
  | move (robotId : Nat) (dir : Direction)
  | attack (robotId : Nat) (targetId : Nat)
  | blueprint (workerId : Nat) (structureType : UnitType) (dir : Direction)
  | load (structureId : Nat) (robotId : Nat)
  | unload (structureId : Nat) (dir : Direction)
  | launchRocket (rocketId : Nat) (dest : MapLocation)
deriving DecidableEq, Repr

/-- Dispatches one action to its validator-and-mutator. -/
noncomputable def GameWorld.applyAction (w : GameWorld) : BcAction → Except BcError GameWorld
  | .move id d => w.move_robot id d
  | .attack id t => w.attack id t
  | .blueprint id ty d => w.blueprint id ty d
  | .load s r => w.load s r
  | .unload s d => w.unload s d
  | .launchRocket r dst => w.launch_rocket r dst

/-- The controller view of applying one action: on success the new
world, on failure the old world together with the single surfaced
error, per the spec propagation policy. -/
noncomputable def GameWorld.applyActionStep (w : GameWorld) (a : BcAction) :
    GameWorld × Option BcError :=
  match w.applyAction a with
  | .ok w' => (w', none)
  | .error e => (w, some e)

/-- Replays an ordered action list through the rules engine,
short-circuiting on the first failing action. -/
noncomputable def GameWorld.applyActions (w : GameWorld) : List BcAction → Except BcError GameWorld
  | [] => .ok w
  | a :: rest =>
    match w.applyAction a with
    | .error e => .error e
    | .ok w' => w'.applyActions rest

/-- Modelled from the spec: end-of-turn heat decay.  Heat decays by the
fixed per-round amount, clamped at 0, for every unit of the team that
just moved on the current planet; the worker has-acted flag resets. -/
def GameWorld.decayUnits (w : GameWorld) : GameWorld :=
  { w with units := w.units.map (fun u =>
      if u.team = w.currentTeam ∧ u.location.is_on_planet w.currentPlanet then
        { u with movementHeat := u.movementHeat - heatDecay,
                 attackHeat := u.attackHeat - heatDecay,
                 abilityHeat := u.abilityHeat - heatDecay,
                 workerHasActed := false }
      else u) }

/-- Resolves one scheduled rocket landing: the rocket reappears at the
destination and landing blast damage hits units adjacent to the
destination. -/
def GameWorld.landOne (w : GameWorld) (L : Nat × Nat × MapLocation) : GameWorld :=
  match w.findUnit L.2.1 with
  | some u => (w.setUnit { u with location := .onMap L.2.2 }).applyBlast L.2.2 rocketBlastDamage
  | none => w

/-- Modelled from the spec: round-advance bookkeeping consumes and
removes the landings scheduled for the new round. -/
def GameWorld.resolveLandings (w : GameWorld) (newRound : Nat) : GameWorld :=
  let due := w.landings.filter (fun L => L.1 = newRound)
  due.foldl GameWorld.landOne
    { w with landings := w.landings.filter (fun L => L.1 ≠ newRound) }

/-- Modelled from the spec: the slot pointer of the turn protocol
controller.  Both teams act once per planet per round in a fixed
order; after the last slot the round advances and its bookkeeping
(landing resolution) runs.  End-of-turn heat decay runs for the team
that just moved. -/
def GameWorld.advanceSlot (w : GameWorld) : GameWorld :=
  let w1 := w.decayUnits
  match w1.currentTeam, w1.currentPlanet with
  | .red, _ => { w1 with currentTeam := .blue }
  | .blue, .earth => { w1 with currentTeam := .red, currentPlanet := .mars }
  | .blue, .mars =>
    { w1.resolveLandings (w1.round + 1) with
        currentTeam := .red, currentPlanet := .earth, round := w1.round + 1 }

/-- The result bundle of a successful turn application
(`bc_TurnApplication`): the next start-turn message (round number) and
the viewer snapshot. -/
structure TurnApplication where
  startTurnRound : Nat
  viewer : GameWorld
deriving DecidableEq, Repr

/-- Modelled from the spec: `bc_GameController_apply_turn` replays the
message action list through the rules engine in order, aborting the
entire batch on the first failing action with no partial application
and returning that error; on success it advances the round and slot
state and returns a `TurnApplication`. -/
noncomputable def GameWorld.apply_turn (w : GameWorld) (turn : List BcAction) :
    GameWorld × Except BcError TurnApplication :=
  match w.applyActions turn with
  | .error e => (w, .error e)
  | .ok w' => (w'.advanceSlot, .ok ⟨w'.advanceSlot.round, w'.advanceSlot⟩)

/-- Modelled from the spec: the initial team resource pool value is
absent from src; fixed here. -/
def initialKarbonite : Nat := 100

/-- The authoritative state created once from a validated game map,
before the first turn. -/
def initialWorld (gm : GameMap) : GameWorld :=
  { round := 1, currentTeam := .red, currentPlanet := .earth,
    redKarbonite := initialKarbonite, blueKarbonite := initialKarbonite,
    redRocketResearch := false, blueRocketResearch := false,
    units := gm.earthMap.initialUnits ++ gm.marsMap.initialUnits,
    landings := [], orbit := gm.orbit,
    earthMap := gm.earthMap, marsMap := gm.marsMap }

/-- Replays an action stream from a world, keeping the previous world
whenever an action fails, as the controller does. -/
noncomputable def replaySteps (w : GameWorld) : List BcAction → GameWorld
  | [] => w
  | a :: rest => replaySteps (w.applyActionStep a).1 rest

/-- One full replay of a match prefix from a game map. -/
noncomputable def replay (gm : GameMap) (acts : List BcAction) : GameWorld :=
  replaySteps (initialWorld gm) acts

/-- The per-action snapshots of a replay: the viewer message stream. -/
noncomputable def replayTraceFrom (w : GameWorld) : List BcAction → List GameWorld
  | [] => []
  | a :: rest =>
    (w.applyActionStep a).1 :: replayTraceFrom (w.applyActionStep a).1 rest

/-- The viewer message stream of a replay from a game map. -/
noncomputable def replayTrace (gm : GameMap) (acts : List BcAction) : List GameWorld :=
  replayTraceFrom (initialWorld gm) acts

/-- The states reachable by the turn protocol: the initial world, any
successful action application, and any slot advance with its
bookkeeping. -/
inductive Reachable (gm : GameMap) : GameWorld → Prop
  | init : Reachable gm (initialWorld gm)
  | step {w : GameWorld} (a : BcAction) {w' : GameWorld} :
      Reachable gm w → w.applyAction a = .ok w' → Reachable gm w'
  | turnEnd {w : GameWorld} : Reachable gm w → Reachable gm w.advanceSlot

/-- The modelled can-predicates of the API, as queries. -/
inductive Query
  | canMove (robotId : Nat) (dir : Direction)
  | canBlueprint (workerId : Nat) (structureType : UnitType) (dir : Direction)
  | canLoad (structureId : Nat) (robotId : Nat)
deriving DecidableEq, Repr

/-- Evaluates one can-predicate on the world. -/
def GameWorld.evalQuery (w : GameWorld) : Query → Bool
  | .canMove id d => w.can_move id d
  | .canBlueprint id ty d => w.can_blueprint id ty d
  | .canLoad s r => w.can_load s r

/-- Modelled from the spec: the call semantics of a can-predicate at
the API boundary.  The predicate is a read-only call: the world is
passed through untouched, no error is surfaced, and the Boolean result
folds every failure reason into false. -/
def GameWorld.queryStep (w : GameWorld) (q : Query) :
    GameWorld × Option BcError × Bool :=
  (w, none, w.evalQuery q)

/-- The garrison capacity invariant: the garrison length of every unit
is bounded by the max capacity of its unit type. -/
def GarrisonOK (w : GameWorld) : Prop :=
  ∀ u ∈ w.units, u.garrison.length ≤ structureMaxCapacity u.unitType

/-- C9: for every direction of the nine values, including Center, the
opposite of the opposite is the direction itself, and rotating left
then right returns the direction itself. -/
theorem direction_opposite_rotate_inverse (d : Direction) :
    d.opposite.opposite = d ∧ d.rotate_left.rotate_right = d := by
  cases d <;> exact ⟨rfl, rfl⟩

/-- C7: the orbit duration is the rounded sinusoid
amplitude * sin(2 * pi * round / period) + center, and in particular
the pattern with amplitude 10, period 20 and center 15 has duration 25
at round 5. -/
theorem orbit_duration_formula :
    (∀ (p : OrbitPattern) (r : Nat), p.duration r =
      (round ((p.amplitude : ℝ) * Real.sin (2 * Real.pi * (r : ℝ) / (p.period : ℝ))
        + (p.center : ℝ))).toNat) ∧
    OrbitPattern.duration ⟨10, 20, 15⟩ 5 = 25 := by
  refine ⟨fun p r => rfl, ?_⟩
  show (round (((10 : ℕ) : ℝ) * Real.sin (2 * Real.pi * ((5 : ℕ) : ℝ) / ((20 : ℕ) : ℝ))
    + ((15 : ℕ) : ℝ))).toNat = 25
  have h1 : 2 * Real.pi * ((5 : ℕ) : ℝ) / ((20 : ℕ) : ℝ) = Real.pi / 2 := by
    push_cast
    ring
  rw [h1, Real.sin_pi_div_two]
  have h2 : ((10 : ℕ) : ℝ) * 1 + ((15 : ℕ) : ℝ) = ((25 : ℕ) : ℝ) := by
    push_cast
    ring
  rw [h2, round_natCast]
  rfl

/-- C10: for a ranger, the countdown and target-location accessors fail
with NullValue exactly when the sniping predicate returns false, and
whenever the ranger is sniping both accessors succeed and return the
stored countdown and target location. -/
theorem ranger_snipe_accessors (u : BcUnit) (h : u.unitType = .ranger) :
    ((u.ranger_countdown = .error .nullValue ∧
      u.ranger_target_location = .error .nullValue) ↔
        u.ranger_is_sniping = .ok false) ∧
    (u.ranger_is_sniping = .ok true →
      ∃ c t, u.snipe = some (c, t) ∧
        u.ranger_countdown = .ok c ∧ u.ranger_target_location = .ok t) := by
  unfold BcUnit.ranger_countdown BcUnit.ranger_target_location BcUnit.ranger_is_sniping
  rw [if_pos h, if_pos h, if_pos h]
  cases hs : u.snipe with
  | none => simp
  | some ct =>
    obtain ⟨c, t⟩ := ct
    exact ⟨by simp, fun _ => ⟨c, t, rfl, rfl, rfl⟩⟩

/-- A ranger that is not currently sniping, used as a concrete instance
for the snipe accessor theorem. -/
def rangerIdle : BcUnit :=
  { id := 7, team := .red, unitType := .ranger, health := 200, maxHealth := 200,
    location := .onMap ⟨.earth, 4, 4⟩, damage := 30, attackRange := 50,
    movementHeat := 0, movementCooldown := 20, attackHeat := 0, attackCooldown := 20,
    abilityHeat := 0, snipe := none, workerHasActed := false, garrison := [],
    structureIsBuilt := false, rocketIsUsed := false, travelTimeDecrease := 0 }

/-- Concrete instance of the snipe accessor theorem: an idle ranger. -/
theorem ranger_snipe_accessors_witness :
    rangerIdle.ranger_countdown = .error .nullValue ∧
    rangerIdle.ranger_target_location = .error .nullValue :=
  (ranger_snipe_accessors rangerIdle rfl).1.mpr rfl

/-- C3: the simulation is deterministic.  Two independent replays of
the same action sequence from the same game map produce equal world
states and equal viewer snapshot streams, and two constructions of the
asteroid pattern from the same seed and Mars map agree on every
query. -/
theorem simulation_deterministic (gm : GameMap) (acts : List BcAction)
    (w1 w2 : GameWorld) (t1 t2 : List GameWorld) (s : Nat) (m : PlanetMap)
    (p1 p2 : AsteroidPattern)
    (h1 : w1 = replay gm acts) (h2 : w2 = replay gm acts)
    (h3 : t1 = replayTrace gm acts) (h4 : t2 = replayTrace gm acts)
    (h5 : p1 = newAsteroidPattern s m) (h6 : p2 = newAsteroidPattern s m) :
    w1 = w2 ∧ t1 = t2 ∧
    ∀ r, p1.has_asteroid r = p2.has_asteroid r ∧ p1.asteroid r = p2.asteroid r := by
  subst h1 h2 h3 h4 h5 h6
  exact ⟨rfl, rfl, fun r => ⟨rfl, rfl⟩⟩

/-- A small valid Earth map with no initial units, for concrete
instances. -/
def testEarthMap : PlanetMap := ⟨.earth, 20, 20, [], []⟩

/-- A small valid Mars map, for concrete instances. -/
def testMarsMap : PlanetMap := ⟨.mars, 20, 20, [], []⟩

/-- A concrete game map built on the test planet maps with seed 42. -/
def testGameMap : GameMap :=
  ⟨42, testEarthMap, testMarsMap, newAsteroidPattern 42 testMarsMap, ⟨5, 40, 25⟩⟩

/-- Concrete instance of determinism: replay of the empty action
stream on the test map, and the seed-42 asteroid pattern of the test
Mars map, each evaluated twice. -/
theorem simulation_deterministic_witness :
    replay testGameMap [] = replay testGameMap [] ∧
    (newAsteroidPattern 42 testMarsMap).has_asteroid 1 =
      (newAsteroidPattern 42 testMarsMap).has_asteroid 1 := by
  have h := simulation_deterministic testGameMap []
    (replay testGameMap []) (replay testGameMap [])
    (replayTrace testGameMap []) (replayTrace testGameMap [])
    42 testMarsMap (newAsteroidPattern 42 testMarsMap) (newAsteroidPattern 42 testMarsMap)
    rfl rfl rfl rfl rfl rfl
  exact ⟨h.1, (h.2.2 1).1⟩

/-- The worker of the insufficient-karbonite blueprint scenario. -/
def blueprintWorker : BcUnit :=
  { id := 1, team := .red, unitType := .worker, health := 100, maxHealth := 100,
    location := .onMap ⟨.earth, 1, 1⟩, damage := 0, attackRange := 0,
    movementHeat := 0, movementCooldown := 20, attackHeat := 0, attackCooldown := 0,
    abilityHeat := 0, snipe := none, workerHasActed := false, garrison := [],
    structureIsBuilt := false, rocketIsUsed := false, travelTimeDecrease := 0 }

/-- The world of the blueprint scenario: one worker, a team pool of 40
karbonite, factory blueprint cost 50. -/
def blueprintWorld : GameWorld :=
  { round := 1, currentTeam := .red, currentPlanet := .earth,
    redKarbonite := 40, blueKarbonite := 40,
    redRocketResearch := false, blueRocketResearch := false,
    units := [blueprintWorker], landings := [], orbit := ⟨5, 40, 25⟩,
    earthMap := testEarthMap, marsMap := testMarsMap }

/-- C1: a failing mutating action leaves the game world unchanged
(team pools, unit set, hence unit health and locations) and surfaces
exactly one error; in particular the worker with a team pool of 40
attempting a factory blueprint of cost 50 fails with
InsufficientKarbonite and the pool is still 40 afterwards. -/
theorem mutator_failure_world_unchanged (w w' : GameWorld) (a : BcAction) (e : BcError) :
    (w.applyActionStep a = (w', some e) →
      w' = w ∧ w'.teamKarbonite .red = w.teamKarbonite .red ∧
      w'.teamKarbonite .blue = w.teamKarbonite .blue ∧ w'.units = w.units) ∧
    blueprintWorld.blueprint 1 .factory .east = .error .insufficientKarbonite ∧
    blueprintWorld.applyActionStep (.blueprint 1 .factory .east) =
      (blueprintWorld, some .insufficientKarbonite) ∧
    blueprintWorld.teamKarbonite .red = 40 := by
  refine ⟨?_, by rfl, by rfl, rfl⟩
  intro h
  unfold GameWorld.applyActionStep at h
  cases ha : w.applyAction a with
  | ok w1 => rw [ha] at h; simp at h
  | error e1 =>
    rw [ha] at h
    obtain ⟨h1, -⟩ := Prod.mk.injEq .. ▸ h
    exact ⟨h1.symm, by rw [h1], by rw [h1], by rw [h1]⟩

/-- Concrete instance of failure atomicity: the blueprint scenario
itself, stepped through the controller. -/
theorem mutator_failure_world_unchanged_witness :
    blueprintWorld = blueprintWorld ∧ blueprintWorld.redKarbonite = 40 :=
  ⟨((mutator_failure_world_unchanged blueprintWorld blueprintWorld
      (.blueprint 1 .factory .east) .insufficientKarbonite).1 (by rfl)).1, rfl⟩

/-- C2: every modelled can-predicate is pure.  A predicate call leaves
the world (team karbonite, the whole unit set, hence every unit health
and location) unchanged, surfaces no error, a second identical call
returns the same result, and every failure reason is folded into a
false return, never an error. -/
theorem can_predicates_pure (w : GameWorld) (q : Query) (id sid rid : Nat)
    (ty : UnitType) (d : Direction) :
    (w.queryStep q).1 = w ∧
    (w.queryStep q).2.1 = none ∧
    (w.queryStep q).1.queryStep q = w.queryStep q ∧
    ((w.queryStep q).1.teamKarbonite .red = w.teamKarbonite .red ∧
      (w.queryStep q).1.teamKarbonite .blue = w.teamKarbonite .blue ∧
      (w.queryStep q).1.units = w.units) ∧
    (w.findUnit id = none →
      w.can_move id d = false ∧ w.can_blueprint id ty d = false ∧
      w.can_load id rid = false ∧ w.can_load sid id = false) := by
  refine ⟨rfl, rfl, rfl, ⟨rfl, rfl, rfl⟩, fun h => ⟨?_, ?_, ?_, ?_⟩⟩
  · unfold GameWorld.can_move
    rw [h]
  · unfold GameWorld.can_blueprint
    rw [h]
  · unfold GameWorld.can_load
    rw [h]
  · unfold GameWorld.can_load
    rw [h]
    cases w.findUnit sid <;> rfl

/-- Concrete instance of predicate purity: a can-move query for a
missing unit id on the blueprint world. -/
theorem can_predicates_pure_witness :
    (blueprintWorld.queryStep (.canMove 99 .east)).1 = blueprintWorld ∧
    blueprintWorld.can_move 99 .east = false := by
  have h := can_predicates_pure blueprintWorld (.canMove 99 .east) 99 1 1 .factory .east
  exact ⟨h.1, (h.2.2.2.2 (by rfl)).1⟩

/-- Replaying a concatenation of action lists composes: the suffix
runs from the state the prefix produced, and a prefix error
short-circuits. -/
theorem applyActions_append (w : GameWorld) (l1 l2 : List BcAction) :
    w.applyActions (l1 ++ l2) =
      match w.applyActions l1 with
      | .ok w1 => w1.applyActions l2
      | .error e => .error e := by
  induction l1 generalizing w with
  | nil => rfl
  | cons a t ih =>
    have hc : ∀ (v : GameWorld) (l : List BcAction), v.applyActions (a :: l) =
        match v.applyAction a with
        | .error e => .error e
        | .ok w1 => w1.applyActions l := fun v l => rfl
    simp only [List.cons_append, hc]
    cases w.applyAction a with
    | ok w1 => exact ih w1
    | error e => rfl

/-- C4: apply_turn replays the message action list in order; the first
failing action aborts the whole batch, no effect is applied (the
controller state is the original world) and that action error is
returned; on success the slot state advances and a TurnApplication is
returned. -/
theorem apply_turn_batch_semantics (w w1 w' : GameWorld)
    (pre rest acts : List BcAction) (a : BcAction) (e : BcError) :
    (w.applyActions pre = .ok w1 → w1.applyAction a = .error e →
      w.apply_turn (pre ++ a :: rest) = (w, .error e)) ∧
    (w.applyActions acts = .ok w' →
      w.apply_turn acts =
        (w'.advanceSlot, .ok ⟨w'.advanceSlot.round, w'.advanceSlot⟩)) := by
  constructor
  · intro h1 h2
    unfold GameWorld.apply_turn
    rw [applyActions_append, h1]
    unfold GameWorld.applyActions
    rw [h2]
  · intro h
    unfold GameWorld.apply_turn
    rw [h]

/-- Concrete instance of batch semantics: a two-action message whose
first action targets a missing unit aborts with NoSuchUnit and leaves
the controller on the original world. -/
theorem apply_turn_batch_semantics_witness :
    blueprintWorld.apply_turn [.move 99 .north, .move 1 .north] =
      (blueprintWorld, .error .noSuchUnit) :=
  (apply_turn_batch_semantics blueprintWorld blueprintWorld blueprintWorld
    [] [.move 1 .north] [] (.move 99 .north) .noSuchUnit).1 rfl (by rfl)

/-- Replaces the attack heat of the unit with the given id, leaving
everything else in the world untouched. -/
def GameWorld.setAttackHeat (w : GameWorld) (id : Nat) (h : Nat) : GameWorld :=
  match w.findUnit id with
  | some u => w.setUnit { u with attackHeat := h }
  | none => w

/-- Finding by id in a unit list after replacing the unit with that id
returns the replacement. -/
theorem find?_map_replace (l : List BcUnit) (u u' : BcUnit) (i : Nat)
    (hfind : l.find? (fun v => v.id = i) = some u) (hid : u'.id = u.id)
    (hui : u.id = i) :
    (l.map (fun v => if v.id = u'.id then u' else v)).find? (fun v => v.id = i) =
      some u' := by
  induction l with
  | nil => simp at hfind
  | cons a t ih =>
    by_cases ha : a.id = i
    · rw [List.find?_cons_of_pos _ (by simp [ha])] at hfind
      obtain rfl : a = u := by injection hfind
      simp only [List.map_cons]
      rw [if_pos (hid.symm ▸ rfl)]
      exact List.find?_cons_of_pos _ (by simp [hid, hui])
    · rw [List.find?_cons_of_neg _ (by simp [ha])] at hfind
      simp only [List.map_cons]
      rw [if_neg (by rw [hid, hui]; exact ha)]
      rw [List.find?_cons_of_neg _ (by simp [ha])]
      exact ih hfind

/-- Changing the attack heat of a robot does not change its move
readiness. -/
theorem is_move_ready_setAttackHeat (w : GameWorld) (id : Nat) (u : BcUnit)
    (h2 : Nat) (hf : w.findUnit id = some u) :
    (w.setAttackHeat id h2).is_move_ready id = w.is_move_ready id := by
  have hui : u.id = id := by simpa using List.find?_some hf
  unfold GameWorld.setAttackHeat
  rw [hf]
  unfold GameWorld.is_move_ready
  have hset : (w.setUnit { u with attackHeat := h2 }).findUnit id =
      some { u with attackHeat := h2 } :=
    find?_map_replace w.units u { u with attackHeat := h2 } id hf rfl hui
  rw [hset, hf]
  rfl

/-- C8: for a robot of the acting team, is_move_ready is true exactly
when the movement heat is below the overheat threshold; for such a
robot on the map, move_robot fails with Overheated exactly when the
movement heat is not below the threshold; and the attack heat of the
robot has no effect on move readiness. -/
theorem is_move_ready_movement_heat (w : GameWorld) (id : Nat) (u : BcUnit)
    (d : Direction) (l : MapLocation)
    (hf : w.findUnit id = some u) (ht : u.team = w.currentTeam)
    (hr : u.unitType.isRobot = true) (hl : u.location = .onMap l) :
    (w.is_move_ready id = true ↔ u.movementHeat < maxHeatToAct) ∧
    (w.move_robot id d = .error .overheated ↔ maxHeatToAct ≤ u.movementHeat) ∧
    ∀ h2, (w.setAttackHeat id h2).is_move_ready id = w.is_move_ready id := by
  refine ⟨?_, ?_, fun h2 => is_move_ready_setAttackHeat w id u h2 hf⟩
  · unfold GameWorld.is_move_ready
    rw [hf]
    simp [ht, hr]
  · unfold GameWorld.move_robot
    rw [hf]
    dsimp only
    rw [hl]
    dsimp only
    rw [if_neg (by simp [ht])]
    rw [if_neg (by simp [hr])]
    by_cases hh : maxHeatToAct ≤ u.movementHeat
    · rw [if_pos hh]
      simp [hh]
    · rw [if_neg hh]
      constructor
      · intro hcon
        exfalso
        split at hcon
        · simp at hcon
        · split at hcon <;> simp at hcon
      · intro hge
        exact absurd hge hh

/-- A knight whose movement heat is above the overheat threshold but
whose attack heat is zero. -/
def hotKnight : BcUnit :=
  { id := 1, team := .red, unitType := .knight, health := 250, maxHealth := 250,
    location := .onMap ⟨.earth, 3, 3⟩, damage := 100, attackRange := 2,
    movementHeat := 12, movementCooldown := 15, attackHeat := 0, attackCooldown := 20,
    abilityHeat := 0, snipe := none, workerHasActed := false, garrison := [],
    structureIsBuilt := false, rocketIsUsed := false, travelTimeDecrease := 0 }

/-- The world of the overheated-knight instance. -/
def heatWorld : GameWorld :=
  { round := 1, currentTeam := .red, currentPlanet := .earth,
    redKarbonite := 0, blueKarbonite := 0,
    redRocketResearch := false, blueRocketResearch := false,
    units := [hotKnight], landings := [], orbit := ⟨5, 40, 25⟩,
    earthMap := testEarthMap, marsMap := testMarsMap }

/-- Concrete instance of move readiness: a knight with movement heat
12 is not ready and moving it fails with Overheated, even though its
attack heat is 0. -/
theorem is_move_ready_movement_heat_witness :
    heatWorld.is_move_ready 1 = false ∧
    heatWorld.move_robot 1 .north = .error .overheated := by
  have h := is_move_ready_movement_heat heatWorld 1 hotKnight .north ⟨.earth, 3, 3⟩
    rfl rfl rfl rfl
  refine ⟨?_, h.2.1.mpr (by decide)⟩
  cases hb : heatWorld.is_move_ready 1
  · rfl
  · exact absurd (h.1.mp hb) (by decide)

/-- C6: a successful rocket launch schedules the landing for
current round + orbit duration of the current round − the rocket
research travel-time decrease: the landings of the new world on the
scheduled round gain exactly the (rocket, destination) entry, and the
landings on every other round are unchanged. -/
theorem launch_schedules_landing (w w' : GameWorld) (rid : Nat) (u : BcUnit)
    (dest : MapLocation) (s : Nat)
    (hf : w.findUnit rid = some u)
    (h : w.launch_rocket rid dest = .ok w') :
    w'.landings_on (w.round + w.orbit.duration w.round - u.travelTimeDecrease) =
      (rid, dest) ::
        w.landings_on (w.round + w.orbit.duration w.round - u.travelTimeDecrease) ∧
    (s ≠ w.round + w.orbit.duration w.round - u.travelTimeDecrease →
      w'.landings_on s = w.landings_on s) := by
  unfold GameWorld.launch_rocket at h
  rw [hf] at h
  dsimp only at h
  split at h <;> try exact Except.noConfusion h
  split at h <;> try exact Except.noConfusion h
  split at h <;> try exact Except.noConfusion h
  split at h <;> try exact Except.noConfusion h
  split at h <;> try exact Except.noConfusion h
  split at h <;> try exact Except.noConfusion h
  split at h <;> try exact Except.noConfusion h
  split at h <;> try exact Except.noConfusion h
  rw [Except.ok.injEq] at h
  subst h
  constructor
  · simp [GameWorld.landings_on, GameWorld.applyBlast, GameWorld.setUnit,
      List.filter_cons]
  · intro hs
    simp [GameWorld.landings_on, GameWorld.applyBlast, GameWorld.setUnit,
      List.filter_cons, Ne.symm hs]

/-- An orbit pattern with amplitude 0 has constant duration equal to
its center: here duration 23 at every round, in particular at round
10. -/
theorem durationZeroAmp (r : Nat) : OrbitPattern.duration ⟨0, 20, 23⟩ r = 23 := by
  unfold OrbitPattern.duration
  show (round (((0 : ℕ) : ℝ) * Real.sin (2 * Real.pi * (r : ℝ) / ((20 : ℕ) : ℝ))
    + ((23 : ℕ) : ℝ))).toNat = 23
  rw [Nat.cast_zero, zero_mul, zero_add, round_natCast]
  rfl

/-- A built, unused rocket of the launch instance. -/
def launchRocketUnit : BcUnit :=
  { id := 1, team := .red, unitType := .rocket, health := 200, maxHealth := 200,
    location := .onMap ⟨.earth, 1, 1⟩, damage := 0, attackRange := 0,
    movementHeat := 0, movementCooldown := 0, attackHeat := 0, attackCooldown := 0,
    abilityHeat := 0, snipe := none, workerHasActed := false, garrison := [],
    structureIsBuilt := true, rocketIsUsed := false, travelTimeDecrease := 0 }

/-- The world of the launch instance: round 10, an orbit whose
duration at round 10 is 23, and one rocket with zero research
travel-time decrease. -/
def launchWorld : GameWorld :=
  { round := 10, currentTeam := .red, currentPlanet := .earth,
    redKarbonite := 0, blueKarbonite := 0,
    redRocketResearch := true, blueRocketResearch := false,
    units := [launchRocketUnit], landings := [], orbit := ⟨0, 20, 23⟩,
    earthMap := testEarthMap, marsMap := testMarsMap }

/-- The Mars destination of the launch instance. -/
def marsDest : MapLocation := ⟨.mars, 2, 2⟩

/-- The launch-instance world after the rocket leaves the planet and
launch blast is applied, before the schedule entry is recorded. -/
def launchAfter : GameWorld :=
  (launchWorld.setUnit
      { launchRocketUnit with location := .inSpace, rocketIsUsed := true }).applyBlast
    ⟨.earth, 1, 1⟩ rocketBlastDamage

/-- Concrete instance of launch scheduling: the rocket launched at
round 10 with duration 23 and zero decrease appears in the landings of
round 33 and not in those of round 32. -/
theorem launch_schedules_landing_witness :
    launchWorld.launch_rocket 1 marsDest =
      .ok { launchAfter with landings := [(33, 1, marsDest)] } ∧
    GameWorld.landings_on { launchAfter with landings := [(33, 1, marsDest)] } 33 =
      [(1, marsDest)] ∧
    GameWorld.landings_on { launchAfter with landings := [(33, 1, marsDest)] } 32 = [] := by
  have hok : launchWorld.launch_rocket 1 marsDest =
      .ok { launchAfter with
        landings := [(10 + OrbitPattern.duration ⟨0, 20, 23⟩ 10 - 0, 1, marsDest)] } := rfl
  have hd : (10 : Nat) + OrbitPattern.duration ⟨0, 20, 23⟩ 10 - 0 = 33 := by
    rw [durationZeroAmp]
  rw [hd] at hok
  have h := launch_schedules_landing launchWorld _ 1 launchRocketUnit marsDest 32 rfl hok
  have hd2 : launchWorld.round + launchWorld.orbit.duration launchWorld.round -
      launchRocketUnit.travelTimeDecrease = 33 := by
    show (10 : Nat) + OrbitPattern.duration ⟨0, 20, 23⟩ 10 - 0 = 33
    rw [durationZeroAmp]
  rw [hd2] at h
  exact ⟨hok, h.1.trans (by rfl), (h.2 (by decide)).trans (by rfl)⟩

/-- The unit returned by findUnit is a member of the unit set. -/
theorem findUnit_mem {w : GameWorld} {id : Nat} {u : BcUnit}
    (h : w.findUnit id = some u) : u ∈ w.units :=
  List.mem_of_find?_eq_some h

/-- The garrison invariant only depends on the unit set. -/
theorem garrisonOK_of_units_eq {w w' : GameWorld} (h : w'.units = w.units)
    (hg : GarrisonOK w) : GarrisonOK w' := fun u hu => hg u (h ▸ hu)

/-- Replacing a unit by one whose garrison is within capacity keeps
the garrison invariant. -/
theorem garrisonOK_setUnit {w : GameWorld} {u' : BcUnit} (hg : GarrisonOK w)
    (hu : u'.garrison.length ≤ structureMaxCapacity u'.unitType) :
    GarrisonOK (w.setUnit u') := by
  intro v hv
  replace hv : v ∈ w.units.map (fun u => if u.id = u'.id then u' else u) := hv
  rw [List.mem_map] at hv
  obtain ⟨x, hx, hxe⟩ := hv
  by_cases hid : x.id = u'.id
  · rw [if_pos hid] at hxe
    subst hxe
    exact hu
  · rw [if_neg hid] at hxe
    subst hxe
    exact hg x hx

/-- Removing units keeps the garrison invariant. -/
theorem garrisonOK_removeUnit {w : GameWorld} (hg : GarrisonOK w) (uid : Nat) :
    GarrisonOK (w.removeUnit uid) := by
  intro v hv
  replace hv : v ∈ w.units.filter
      (fun u => decide (u.id ≠ uid ∧ u.location ≠ .inGarrison uid)) := hv
  rw [List.mem_filter] at hv
  exact hg v hv.1

/-- Blast damage only changes health or removes units, so it keeps the
garrison invariant. -/
theorem garrisonOK_applyBlast {w : GameWorld} (hg : GarrisonOK w)
    (c : MapLocation) (dmg : Nat) : GarrisonOK (w.applyBlast c dmg) := by
  intro v hv
  replace hv : v ∈ w.units.filterMap (fun u =>
      if u.location.is_adjacent_to (.onMap c) then
        if u.health ≤ dmg then none
        else some { u with health := u.health - dmg }
      else some u) := hv
  rw [List.mem_filterMap] at hv
  obtain ⟨x, hx, hxe⟩ := hv
  by_cases hadj : x.location.is_adjacent_to (.onMap c)
  · rw [if_pos hadj] at hxe
    by_cases hh : x.health ≤ dmg
    · rw [if_pos hh] at hxe
      exact Option.noConfusion hxe
    · rw [if_neg hh] at hxe
      cases hxe
      exact hg x hx
  · rw [if_neg hadj] at hxe
    cases hxe
    exact hg _ hx

/-- Appending a unit whose garrison is within capacity keeps the
garrison invariant. -/
theorem garrisonOK_append {w : GameWorld} {nu : BcUnit} (hg : GarrisonOK w)
    (hn : nu.garrison.length ≤ structureMaxCapacity nu.unitType) :
    GarrisonOK { w with units := w.units ++ [nu] } := by
  intro v hv
  replace hv : v ∈ w.units ++ [nu] := hv
  rw [List.mem_append, List.mem_singleton] at hv
  rcases hv with hv | rfl
  · exact hg v hv
  · exact hn

/-- Heat decay does not touch garrisons. -/
theorem garrisonOK_decayUnits {w : GameWorld} (hg : GarrisonOK w) :
    GarrisonOK w.decayUnits := by
  intro v hv
  replace hv : v ∈ w.units.map (fun u =>
      if u.team = w.currentTeam ∧ u.location.is_on_planet w.currentPlanet then
        { u with movementHeat := u.movementHeat - heatDecay,
                 attackHeat := u.attackHeat - heatDecay,
                 abilityHeat := u.abilityHeat - heatDecay,
                 workerHasActed := false }
      else u) := hv
  rw [List.mem_map] at hv
  obtain ⟨x, hx, hxe⟩ := hv
  by_cases hc : x.team = w.currentTeam ∧ x.location.is_on_planet w.currentPlanet
  · rw [if_pos hc] at hxe
    subst hxe
    exact hg x hx
  · rw [if_neg hc] at hxe
    subst hxe
    exact hg x hx

/-- Resolving one landing keeps the garrison invariant. -/
theorem garrisonOK_landOne {w : GameWorld} (hg : GarrisonOK w)
    (L : Nat × Nat × MapLocation) : GarrisonOK (w.landOne L) := by
  unfold GameWorld.landOne
  cases hfind : w.findUnit L.2.1 with
  | none => exact hg
  | some u =>
    have hcap : ({ u with location := .onMap L.2.2 } : BcUnit).garrison.length ≤
        structureMaxCapacity ({ u with location := .onMap L.2.2 } : BcUnit).unitType :=
      hg u (findUnit_mem hfind)
    exact garrisonOK_applyBlast (garrisonOK_setUnit hg hcap) L.2.2 rocketBlastDamage

/-- Folding landing resolution keeps the garrison invariant. -/
theorem garrisonOK_foldl_landOne (L : List (Nat × Nat × MapLocation)) :
    ∀ ws : GameWorld, GarrisonOK ws → GarrisonOK (L.foldl GameWorld.landOne ws) := by
  induction L with
  | nil => exact fun ws hg => hg
  | cons a t ih => exact fun ws hg => ih _ (garrisonOK_landOne hg a)

/-- Round-advance landing resolution keeps the garrison invariant. -/
theorem garrisonOK_resolveLandings {w : GameWorld} (hg : GarrisonOK w) (r : Nat) :
    GarrisonOK (w.resolveLandings r) := by
  unfold GameWorld.resolveLandings
  exact garrisonOK_foldl_landOne _ _ (garrisonOK_of_units_eq rfl hg)

/-- Slot advance with its bookkeeping keeps the garrison invariant. -/
theorem garrisonOK_advanceSlot {w : GameWorld} (hg : GarrisonOK w) :
    GarrisonOK w.advanceSlot := by
  have hdecay := garrisonOK_decayUnits (w := w) hg
  unfold GameWorld.advanceSlot
  dsimp only
  split
  · exact garrisonOK_of_units_eq rfl hdecay
  · exact garrisonOK_of_units_eq rfl hdecay
  · exact garrisonOK_of_units_eq rfl (garrisonOK_resolveLandings hdecay _)

/-- Replacing a team pool does not touch the unit set. -/
theorem units_setTeamKarbonite (w : GameWorld) (t : Team) (k : Nat) :
    (w.setTeamKarbonite t k).units = w.units := by
  cases t <;> rfl

/-- Replacing a unit by an update of a member unit with the same
garrison and unit type keeps the garrison invariant. -/
theorem garrisonOK_setUnit_like {w : GameWorld} {u' x : BcUnit} (hg : GarrisonOK w)
    (hx : x ∈ w.units) (hgar : u'.garrison = x.garrison)
    (hty : u'.unitType = x.unitType) : GarrisonOK (w.setUnit u') :=
  garrisonOK_setUnit hg (by rw [hgar, hty]; exact hg x hx)

/-- A successful move keeps the garrison invariant. -/
theorem garrisonOK_move_robot {w w' : GameWorld} {id : Nat} {d : Direction}
    (hg : GarrisonOK w) (h : w.move_robot id d = .ok w') : GarrisonOK w' := by
  unfold GameWorld.move_robot at h
  cases hfind : w.findUnit id with
  | none => rw [hfind] at h; exact Except.noConfusion h
  | some u =>
    rw [hfind] at h
    dsimp only at h
    split at h <;> try exact Except.noConfusion h
    split at h <;> try exact Except.noConfusion h
    split at h <;> try exact Except.noConfusion h
    split at h <;> try exact Except.noConfusion h
    split at h <;> try exact Except.noConfusion h
    split at h <;> try exact Except.noConfusion h
    rw [Except.ok.injEq] at h
    subst h
    exact garrisonOK_setUnit_like hg (findUnit_mem hfind) rfl rfl

/-- A successful blueprint keeps the garrison invariant: the new
structure starts with an empty garrison. -/
theorem garrisonOK_blueprint {w w' : GameWorld} {id : Nat} {ty : UnitType}
    {d : Direction} (hg : GarrisonOK w) (h : w.blueprint id ty d = .ok w') :
    GarrisonOK w' := by
  unfold GameWorld.blueprint at h
  cases hfind : w.findUnit id with
  | none => rw [hfind] at h; exact Except.noConfusion h
  | some u =>
    rw [hfind] at h
    dsimp only at h
    split at h <;> try exact Except.noConfusion h
    split at h <;> try exact Except.noConfusion h
    split at h <;> try exact Except.noConfusion h
    split at h <;> try exact Except.noConfusion h
    split at h <;> try exact Except.noConfusion h
    split at h <;> try exact Except.noConfusion h
    split at h <;> try exact Except.noConfusion h
    split at h <;> try exact Except.noConfusion h
    split at h <;> try exact Except.noConfusion h
    rw [Except.ok.injEq] at h
    subst h
    have hg1 : GarrisonOK ((w.setUnit { u with workerHasActed := true }).setTeamKarbonite
        u.team (w.teamKarbonite u.team - blueprintCostN ty)) :=
      garrisonOK_of_units_eq (units_setTeamKarbonite _ _ _)
        (garrisonOK_setUnit_like hg (findUnit_mem hfind) rfl rfl)
    exact garrisonOK_append hg1 (Nat.zero_le _)

/-- A successful attack keeps the garrison invariant: it only bumps
the attacker heat and lowers or removes the target. -/
theorem garrisonOK_attack {w w' : GameWorld} {id tid : Nat}
    (hg : GarrisonOK w) (h : w.attack id tid = .ok w') : GarrisonOK w' := by
  unfold GameWorld.attack at h
  cases hfind : w.findUnit id with
  | none => rw [hfind] at h; exact Except.noConfusion h
  | some u =>
    rw [hfind] at h
    dsimp only at h
    split at h <;> try exact Except.noConfusion h
    split at h <;> try exact Except.noConfusion h
    split at h <;> try exact Except.noConfusion h
    split at h <;> try exact Except.noConfusion h
    cases hft : w.findUnit tid with
    | none => rw [hft] at h; exact Except.noConfusion h
    | some t =>
      rw [hft] at h
      dsimp only at h
      split at h <;> try exact Except.noConfusion h
      split at h <;> try exact Except.noConfusion h
      have hg1 : GarrisonOK (w.setUnit { u with attackHeat := u.attackHeat + u.attackCooldown }) :=
        garrisonOK_setUnit_like hg (findUnit_mem hfind) rfl rfl
      split at h
      · rw [Except.ok.injEq] at h
        subst h
        exact garrisonOK_removeUnit hg1 tid
      · rw [Except.ok.injEq] at h
        subst h
        refine garrisonOK_setUnit hg1 ?_
        have := hg t (findUnit_mem hft)
        exact this

/-- A successful load keeps the garrison invariant: the append is
guarded by remaining capacity. -/
theorem garrisonOK_load {w w' : GameWorld} {sid rid : Nat}
    (hg : GarrisonOK w) (h : w.load sid rid = .ok w') : GarrisonOK w' := by
  unfold GameWorld.load at h
  cases hfs : w.findUnit sid with
  | none => rw [hfs] at h; exact Except.noConfusion h
  | some s =>
    rw [hfs] at h
    dsimp only at h
    cases hfr : w.findUnit rid with
    | none => rw [hfr] at h; exact Except.noConfusion h
    | some r =>
      rw [hfr] at h
      dsimp only at h
      split at h <;> try exact Except.noConfusion h
      split at h <;> try exact Except.noConfusion h
      split at h <;> try exact Except.noConfusion h
      split at h <;> try exact Except.noConfusion h
      split at h <;> try exact Except.noConfusion h
      split at h <;> try exact Except.noConfusion h
      rename_i hfull
      split at h <;> try exact Except.noConfusion h
      rw [Except.ok.injEq] at h
      subst h
      have hcap : (s.garrison ++ [rid]).length ≤ structureMaxCapacity s.unitType := by
        rw [List.length_append]
        simp only [List.length_singleton]
        omega
      have hg1 : GarrisonOK (w.setUnit { s with garrison := s.garrison ++ [rid] }) :=
        garrisonOK_setUnit hg hcap
      refine garrisonOK_setUnit hg1 ?_
      exact hg r (findUnit_mem hfr)

/-- A successful unload keeps the garrison invariant: the garrison
only shrinks. -/
theorem garrisonOK_unload {w w' : GameWorld} {sid : Nat} {d : Direction}
    (hg : GarrisonOK w) (h : w.unload sid d = .ok w') : GarrisonOK w' := by
  unfold GameWorld.unload at h
  cases hfs : w.findUnit sid with
  | none => rw [hfs] at h; exact Except.noConfusion h
  | some s =>
    rw [hfs] at h
    dsimp only at h
    split at h <;> try exact Except.noConfusion h
    split at h <;> try exact Except.noConfusion h
    split at h <;> try exact Except.noConfusion h
    split at h <;> try exact Except.noConfusion h
    cases hgar : s.garrison with
    | nil => rw [hgar] at h; exact Except.noConfusion h
    | cons rid0 rest =>
      rw [hgar] at h
      dsimp only at h
      cases hfr : w.findUnit rid0 with
      | none => rw [hfr] at h; exact Except.noConfusion h
      | some r =>
        rw [hfr] at h
        dsimp only at h
        split at h <;> try exact Except.noConfusion h
        split at h <;> try exact Except.noConfusion h
        split at h <;> try exact Except.noConfusion h
        rw [Except.ok.injEq] at h
        subst h
        have hg1 : GarrisonOK (w.setUnit { s with garrison := rest }) := by
          refine garrisonOK_setUnit hg ?_
          show rest.length ≤ structureMaxCapacity s.unitType
          have hs := hg s (findUnit_mem hfs)
          rw [hgar] at hs
          simp only [List.length_cons] at hs
          omega
        refine garrisonOK_setUnit hg1 ?_
        exact hg r (findUnit_mem hfr)

/-- A successful launch keeps the garrison invariant: it only moves
the rocket into space, applies blast damage and records a landing. -/
theorem garrisonOK_launch {w w' : GameWorld} {rid : Nat} {dest : MapLocation}
    (hg : GarrisonOK w) (h : w.launch_rocket rid dest = .ok w') : GarrisonOK w' := by
  unfold GameWorld.launch_rocket at h
  cases hfind : w.findUnit rid with
  | none => rw [hfind] at h; exact Except.noConfusion h
  | some u =>
    rw [hfind] at h
    dsimp only at h
    split at h <;> try exact Except.noConfusion h
    split at h <;> try exact Except.noConfusion h
    split at h <;> try exact Except.noConfusion h
    split at h <;> try exact Except.noConfusion h
    split at h <;> try exact Except.noConfusion h
    split at h <;> try exact Except.noConfusion h
    split at h <;> try exact Except.noConfusion h
    split at h <;> try exact Except.noConfusion h
    rw [Except.ok.injEq] at h
    subst h
    refine garrisonOK_of_units_eq rfl ?_
    refine garrisonOK_applyBlast ?_ _ _
    exact garrisonOK_setUnit_like hg (findUnit_mem hfind) rfl rfl

/-- A successful action of any modelled kind keeps the garrison
invariant. -/
theorem garrisonOK_applyAction {w w' : GameWorld} {a : BcAction}
    (hg : GarrisonOK w) (h : w.applyAction a = .ok w') : GarrisonOK w' := by
  cases a with
  | move id d => exact garrisonOK_move_robot hg h
  | attack id t => exact garrisonOK_attack hg h
  | blueprint id ty d => exact garrisonOK_blueprint hg h
  | load s r => exact garrisonOK_load hg h
  | unload s d => exact garrisonOK_unload hg h
  | launchRocket r dst => exact garrisonOK_launch hg h

/-- A valid planet map only has initial units with empty garrisons. -/
theorem initial_units_garrison_nil {m : PlanetMap} (hv : m.isValid = true) :
    ∀ u ∈ m.initialUnits, u.garrison = [] := by
  unfold PlanetMap.isValid at hv
  simp only [Bool.and_eq_true, List.all_eq_true, decide_eq_true_eq] at hv
  intro u hu
  have := hv.1.2 u hu
  simp only [Bool.and_eq_true, decide_eq_true_eq] at this
  exact this.1.2

/-- The initial world of a valid game map satisfies the garrison
invariant: every initial unit is a worker with an empty garrison. -/
theorem garrisonOK_initialWorld {gm : GameMap} (hv : gm.isValid = true) :
    GarrisonOK (initialWorld gm) := by
  unfold GameMap.isValid at hv
  simp only [Bool.and_eq_true, decide_eq_true_eq] at hv
  intro v hv2
  replace hv2 : v ∈ gm.earthMap.initialUnits ++ gm.marsMap.initialUnits := hv2
  rw [List.mem_append] at hv2
  cases hv2 with
  | inl he =>
    have hnil := initial_units_garrison_nil hv.1.1.1.2 v he
    rw [hnil]
    exact Nat.zero_le _
  | inr hm =>
    have hnil := initial_units_garrison_nil hv.1.1.2 v hm
    rw [hnil]
    exact Nat.zero_le _

/-- C5: in every reachable state of a validated game map, the garrison
length of every structure (indeed every unit) never exceeds its max
capacity; and a load whose shared preconditions pass but whose target
garrison is at max capacity always fails with GarrisonFull. -/
theorem garrison_capacity_invariant (gm : GameMap) (w0 w : GameWorld)
    (sid rid : Nat) (s r : BcUnit) (ls lr : MapLocation) :
    (gm.isValid = true → Reachable gm w0 → GarrisonOK w0) ∧
    (w.findUnit sid = some s → w.findUnit rid = some r →
      s.team = w.currentTeam → r.team = w.currentTeam →
      s.unitType.isStructure = true → r.unitType.isRobot = true →
      s.location = .onMap ls → r.location = .onMap lr →
      r.movementHeat < maxHeatToAct → s.structureIsBuilt = true →
      structureMaxCapacity s.unitType ≤ s.garrison.length →
      w.load sid rid = .error .garrisonFull) := by
  constructor
  · intro hv hreach
    induction hreach with
    | init => exact garrisonOK_initialWorld hv
    | step a hrec heq ih => exact garrisonOK_applyAction ih heq
    | turnEnd hrec ih => exact garrisonOK_advanceSlot ih
  · intro hfs hfr hts htr hss hrr hls hlr hheat hbuilt hfull
    unfold GameWorld.load
    rw [hfs, hfr]
    dsimp only
    rw [if_neg (by simp [hts, htr])]
    rw [if_neg (by simp [hss, hrr])]
    rw [hls, hlr]
    dsimp only
    rw [if_neg (by omega)]
    rw [if_neg (by simp [hbuilt])]
    rw [if_pos hfull]

/-- A built factory with a full garrison of eight robots. -/
def fullFactory : BcUnit :=
  { id := 1, team := .red, unitType := .factory, health := 300, maxHealth := 300,
    location := .onMap ⟨.earth, 2, 2⟩, damage := 0, attackRange := 0,
    movementHeat := 0, movementCooldown := 0, attackHeat := 0, attackCooldown := 0,
    abilityHeat := 0, snipe := none, workerHasActed := false,
    garrison := [10, 11, 12, 13, 14, 15, 16, 17],
    structureIsBuilt := true, rocketIsUsed := false, travelTimeDecrease := 0 }

/-- A knight adjacent to the full factory and ready to move. -/
def loadKnight : BcUnit :=
  { id := 2, team := .red, unitType := .knight, health := 250, maxHealth := 250,
    location := .onMap ⟨.earth, 2, 3⟩, damage := 100, attackRange := 2,
    movementHeat := 0, movementCooldown := 15, attackHeat := 0, attackCooldown := 20,
    abilityHeat := 0, snipe := none, workerHasActed := false, garrison := [],
    structureIsBuilt := false, rocketIsUsed := false, travelTimeDecrease := 0 }

/-- The world of the full-garrison load instance. -/
def fullWorld : GameWorld :=
  { round := 1, currentTeam := .red, currentPlanet := .earth,
    redKarbonite := 0, blueKarbonite := 0,
    redRocketResearch := false, blueRocketResearch := false,
    units := [fullFactory, loadKnight], landings := [], orbit := ⟨5, 40, 25⟩,
    earthMap := testEarthMap, marsMap := testMarsMap }

/-- Concrete instance of the garrison invariant: the initial world of
the test map satisfies it, and loading a ready adjacent knight into a
full factory fails with GarrisonFull. -/
theorem garrison_capacity_invariant_witness :
    GarrisonOK (initialWorld testGameMap) ∧
    fullWorld.load 1 2 = .error .garrisonFull := by
  have h := garrison_capacity_invariant testGameMap (initialWorld testGameMap)
    fullWorld 1 2 fullFactory loadKnight ⟨.earth, 2, 2⟩ ⟨.earth, 2, 3⟩
  exact ⟨h.1 (by decide) Reachable.init,
    h.2 rfl rfl rfl rfl rfl rfl rfl rfl (by decide) rfl (by decide)⟩
